import Mathlib

set_option maxHeartbeats 1600000
set_option maxRecDepth 4000

namespace JellyfinHelper

/-- Titles, dates, queries and folder names are modelled as lists of Unicode
code points (Python `str`). -/
abbrev Cps := List Nat

/-- Embed an ASCII literal as a code-point string. -/
def ofAscii (s : String) : Cps := s.data.map Char.toNat

/-! ## Unicode text model

`trailer_manager._normalize` and `tmdb_client._normalize_for_compare` call
`unicodedata.normalize('NFKD', text)`, drop combining marks and lowercase.
The library primitives are modelled here for the Latin repertoire the
program processes (ASCII, Latin-1 letters, Romanian diacritics); code points
outside the table are decomposition-stable. -/

/-- Combining-mark predicate: the combining diacritical marks block
U+0300..U+036F, the block produced by the decompositions below
(models `unicodedata.combining` on this repertoire). -/
def combiningMark (c : Nat) : Bool := 0x300 ≤ c && c ≤ 0x36F

/-- Canonical (NFKD) decompositions for Latin-1 letters with diacritics,
Romanian comma-below letters and their cedilla legacy forms, dotted capital I
and capital Y with diaeresis. -/
def nfkdTable : List (Nat × List Nat) := [
  (0xC0, [0x41, 0x300]), (0xC1, [0x41, 0x301]), (0xC2, [0x41, 0x302]),
  (0xC3, [0x41, 0x303]), (0xC4, [0x41, 0x308]), (0xC5, [0x41, 0x30A]),
  (0xC7, [0x43, 0x327]), (0xC8, [0x45, 0x300]), (0xC9, [0x45, 0x301]),
  (0xCA, [0x45, 0x302]), (0xCB, [0x45, 0x308]), (0xCC, [0x49, 0x300]),
  (0xCD, [0x49, 0x301]), (0xCE, [0x49, 0x302]), (0xCF, [0x49, 0x308]),
  (0xD1, [0x4E, 0x303]), (0xD2, [0x4F, 0x300]), (0xD3, [0x4F, 0x301]),
  (0xD4, [0x4F, 0x302]), (0xD5, [0x4F, 0x303]), (0xD6, [0x4F, 0x308]),
  (0xD9, [0x55, 0x300]), (0xDA, [0x55, 0x301]), (0xDB, [0x55, 0x302]),
  (0xDC, [0x55, 0x308]), (0xDD, [0x59, 0x301]),
  (0xE0, [0x61, 0x300]), (0xE1, [0x61, 0x301]), (0xE2, [0x61, 0x302]),
  (0xE3, [0x61, 0x303]), (0xE4, [0x61, 0x308]), (0xE5, [0x61, 0x30A]),
  (0xE7, [0x63, 0x327]), (0xE8, [0x65, 0x300]), (0xE9, [0x65, 0x301]),
  (0xEA, [0x65, 0x302]), (0xEB, [0x65, 0x308]), (0xEC, [0x69, 0x300]),
  (0xED, [0x69, 0x301]), (0xEE, [0x69, 0x302]), (0xEF, [0x69, 0x308]),
  (0xF1, [0x6E, 0x303]), (0xF2, [0x6F, 0x300]), (0xF3, [0x6F, 0x301]),
  (0xF4, [0x6F, 0x302]), (0xF5, [0x6F, 0x303]), (0xF6, [0x6F, 0x308]),
  (0xF9, [0x75, 0x300]), (0xFA, [0x75, 0x301]), (0xFB, [0x75, 0x302]),
  (0xFC, [0x75, 0x308]), (0xFD, [0x79, 0x301]), (0xFF, [0x79, 0x308]),
  (0x102, [0x41, 0x306]), (0x103, [0x61, 0x306]),
  (0x130, [0x49, 0x307]), (0x178, [0x59, 0x308]),
  (0x15E, [0x53, 0x327]), (0x15F, [0x73, 0x327]),
  (0x162, [0x54, 0x327]), (0x163, [0x74, 0x327]),
  (0x218, [0x53, 0x326]), (0x219, [0x73, 0x326]),
  (0x21A, [0x54, 0x326]), (0x21B, [0x74, 0x326])]

/-- First-match association-list lookup. -/
def tblLookup : List (Nat × List Nat) → Nat → Option (List Nat)
  | [], _ => none
  | (k, v) :: rest, c => if c = k then some v else tblLookup rest c

/-- NFKD decomposition of one code point. -/
def nfkdChar (c : Nat) : List Nat := (tblLookup nfkdTable c).getD [c]

/-- Lowercasing of one code point (models `str.lower` on this repertoire:
ASCII letters and Latin-1 uppercase letters shift by 0x20, everything else
is fixed; uppercase letters with decompositions are lowered through their
decomposed base letter inside `normalize`). -/
def lowerChar (c : Nat) : Nat :=
  if 0x41 ≤ c && c ≤ 0x5A then c + 0x20
  else if 0xC0 ≤ c && c ≤ 0xDE && c != 0xD7 then c + 0x20
  else c

/-- `trailer_manager._normalize` / `tmdb_client._normalize_for_compare`:
NFKD-decompose, drop combining marks, lowercase. -/
def normalize (text : Cps) : Cps :=
  ((text.flatMap nfkdChar).filter (fun c => !combiningMark c)).map lowerChar

/-- The regex character class `[a-z0-9]`. -/
def isWordChar (c : Nat) : Bool := (0x61 ≤ c && c ≤ 0x7A) || (0x30 ≤ c && c ≤ 0x39)

/-- `re.findall(r'[a-z0-9]+', ·)`: maximal runs of word characters;
`cur` is the (reversed) run currently being read. -/
def runsAux : Cps → Cps → List Cps
  | [], cur => if cur = [] then [] else [cur.reverse]
  | c :: rest, cur =>
    if isWordChar c then runsAux rest (c :: cur)
    else if cur = [] then runsAux rest []
    else cur.reverse :: runsAux rest []

def wordRuns (l : Cps) : List Cps := runsAux l []

/-- `trailer_manager._extract_words` / `tmdb_client._title_words`:
the set of `[a-z0-9]+` runs of the normalized text. -/
def extractWords (text : Cps) : Finset Cps := (wordRuns (normalize text)).toFinset

/-- `p` occurs at the head of `s`. -/
def leadsWith : Cps → Cps → Bool
  | [], _ => true
  | _ :: _, [] => false
  | p :: ps, c :: cs => p == c && leadsWith ps cs

/-- Python substring membership `p in s`. -/
def isSubstr (p : Cps) : Cps → Bool
  | [] => leadsWith p []
  | c :: cs => leadsWith p (c :: cs) || isSubstr p cs

/-- Decimal digits of a number, as code points (f-string `{n}`). -/
def natCps (n : Nat) : Cps := (Nat.toDigits 10 n).map Char.toNat

/-- Zero-padded two-digit format (f-string `{n:02d}`). -/
def natCps2 (n : Nat) : Cps := if n < 10 then 0x30 :: natCps n else natCps n

/-- A code point untouched by every stage of `normalize`. -/
def stableChar (c : Nat) : Bool :=
  nfkdChar c == [c] && !combiningMark c && lowerChar c == c

/-! ## trailer_manager.py -/

/-- `MIN_SCORE`: minimum score to accept a YouTube result. -/
def minScore : Int := 5

/-- `REJECT_KEYWORDS` (a frozenset in the source; iteration order is
irrelevant to the any-of check below). -/
def rejectKeywords : List Cps :=
  [ofAscii "interview", ofAscii "interviu", ofAscii "recap", ofAscii "review",
   ofAscii "reaction", ofAscii "explained", ofAscii "breakdown",
   ofAscii "behind the scenes", ofAscii "making of",
   ofAscii "full movie", ofAscii "full episode",
   ofAscii "rezumat", ofAscii "episod complet"]

/-- The `season_pats` list generated in `_score_candidate` for a season. -/
def seasonPats (n : Nat) : List Cps :=
  [ofAscii "season " ++ natCps n, ofAscii "sezon " ++ natCps n,
   ofAscii "sezonul " ++ natCps n, ofAscii "sez " ++ natCps n,
   ofAscii "s" ++ natCps2 n, ofAscii "s" ++ natCps n ++ ofAscii " ",
   ofAscii "series " ++ natCps n, ofAscii "seria " ++ natCps n]

/-- One yt-dlp search result, as `_yt_search_json` shapes it
(fields default to `''` / `False` / `0`). -/
structure Candidate where
  ident : Cps
  title : Cps
  channel : Cps
  channelIsVerified : Bool
  duration : Int
deriving DecidableEq

/-- `_score_candidate`: hard checks, then additive scoring from base 5. -/
def scoreCandidate (candidate : Candidate) (titleWords : Finset Cps)
    (year : Cps) (isShow : Bool) (isSeason : Bool) (seasonNum : Nat) : Int :=
  let normTitle := normalize candidate.title
  let videoWords := extractWords candidate.title
  if ofAscii "trailer" ∉ videoWords then -1
  else if ¬ titleWords ⊆ videoWords then -1
  else if rejectKeywords.any (fun kw => isSubstr kw normTitle) then -1
  else if isSeason ∧ 0 < seasonNum ∧
      ¬ (seasonPats seasonNum).any (fun p => isSubstr p normTitle) then -1
  else
    let s : Int := 5
    let s := if year ≠ [] ∧ year ∈ videoWords then s + 3 else s
    let s := if candidate.channelIsVerified then s + 4 else s
    let s := if ofAscii "official" ∈ videoWords ∨ ofAscii "oficial" ∈ videoWords
             then s + 3 else s
    let s := if ofAscii "red" ∈ videoWords ∧ ofAscii "band" ∈ videoWords
             then s + 5 else s
    let s := if 30 ≤ candidate.duration ∧ candidate.duration ≤ 240 then s + 2
             else if 600 < candidate.duration then s - 3 else s
    let s := if videoWords.card ≤ 10 then s + 1 else s
    s

/-- A candidate together with its score (`{**c, 'score': score}`). -/
structure ScoredCandidate where
  cand : Candidate
  score : Int
deriving DecidableEq

/-- The loop body state of `_pick_best`: current best and best score. -/
def pickBestAux (titleWords : Finset Cps) (year : Cps)
    (isShow isSeason : Bool) (seasonNum : Nat) :
    List Candidate → Option ScoredCandidate × Int → Option ScoredCandidate × Int
  | [], st => st
  | c :: rest, st =>
    pickBestAux titleWords year isShow isSeason seasonNum rest
      (if st.2 < scoreCandidate c titleWords year isShow isSeason seasonNum
       then (some ⟨c, scoreCandidate c titleWords year isShow isSeason seasonNum⟩,
             scoreCandidate c titleWords year isShow isSeason seasonNum)
       else st)

/-- `_pick_best`: highest-scoring candidate above `MIN_SCORE - 1`,
strictly-greater comparison, so the earliest maximal candidate wins. -/
def pickBest (candidates : List Candidate) (titleWords : Finset Cps)
    (year : Cps) (isShow isSeason : Bool) (seasonNum : Nat) :
    Option ScoredCandidate :=
  (pickBestAux titleWords year isShow isSeason seasonNum candidates
    (none, minScore - 1)).1

/-- One result merged into the accumulator of `_search_youtube_validated`:
results with a fresh non-empty id are appended, everything else is dropped. -/
def dedupStep (st : List Cps × List Candidate) (r : Candidate) :
    List Cps × List Candidate :=
  if r.ident ≠ [] ∧ r.ident ∉ st.1 then (r.ident :: st.1, st.2 ++ [r]) else st

/-- All of one query's results merged into the accumulator. -/
def mergeResults (st : List Cps × List Candidate) (rs : List Candidate) :
    List Cps × List Candidate :=
  rs.foldl dedupStep st

/-- The accumulator state after a list of (query, results) steps. -/
def searchState (steps : List (Cps × List Candidate))
    (st : List Cps × List Candidate) : List Cps × List Candidate :=
  steps.foldl (fun s p => mergeResults s p.2) st

/-- The query loop of `_search_youtube_validated`. A step pairs a query with
the results yt-dlp returns for it; the first component of the output is the
list of queries actually issued (the loop's observable behaviour), the second
the returned candidate (the source returns its watch URL). -/
def searchLoop (titleWords : Finset Cps) (year : Cps)
    (isShow isSeason : Bool) (seasonNum : Nat) :
    List (Cps × List Candidate) → List Cps × List Candidate →
    List Cps × Option ScoredCandidate
  | [], st => ([], pickBest st.2 titleWords year isShow isSeason seasonNum)
  | (q, rs) :: rest, st =>
    match pickBest (mergeResults st rs).2 titleWords year isShow isSeason
        seasonNum with
    | some b =>
      if 12 ≤ b.score then ([q], some b)
      else
        (q :: (searchLoop titleWords year isShow isSeason seasonNum rest
                (mergeResults st rs)).1,
         (searchLoop titleWords year isShow isSeason seasonNum rest
                (mergeResults st rs)).2)
    | none =>
      (q :: (searchLoop titleWords year isShow isSeason seasonNum rest
              (mergeResults st rs)).1,
       (searchLoop titleWords year isShow isSeason seasonNum rest
              (mergeResults st rs)).2)

/-- Python `str.replace(':', '')`. -/
def stripColons (t : Cps) : Cps := t.filter (fun c => c ≠ 0x3A)

/-- `TrailerManager._build_queries`. -/
def buildQueries (originalTitle enTitle year : Cps)
    (isShow isSeason : Bool) (seasonNum : Nat) : List Cps :=
  let en := stripColons enTitle
  let orig := if originalTitle ≠ [] then stripColons originalTitle
              else originalTitle
  let category := if isShow then ofAscii "tv series" else ofAscii "movie"
  if isSeason then
    (if orig ≠ [] ∧ orig ≠ en then
       [orig ++ ofAscii " season " ++ natCps seasonNum
          ++ ofAscii " official trailer"]
     else [])
    ++ [en ++ ofAscii " season " ++ natCps seasonNum
          ++ ofAscii " official trailer"]
    ++ (if year ≠ [] then
          [en ++ ofAscii " season " ++ natCps seasonNum ++ ofAscii " "
             ++ year ++ ofAscii " trailer"]
        else [])
  else
    (if year ≠ [] then
       [en ++ ofAscii " " ++ year ++ ofAscii " official trailer",
        en ++ ofAscii " " ++ year ++ ofAscii " " ++ category
          ++ ofAscii " trailer"]
     else [])
    ++ [en ++ ofAscii " official trailer"]
    ++ (if orig ≠ [] ∧ orig ≠ en then
          (if year ≠ [] then
             [orig ++ ofAscii " " ++ year ++ ofAscii " official trailer"]
           else [])
          ++ [orig ++ ofAscii " trailer"]
        else [])

/-! ## tmdb_client.py -/

/-- One TMDB search result record, reduced to the two fields
`_find_best_match` reads (`result.get(title_key, '')`,
`result.get(date_key, '') or ''`). -/
structure TmdbResult where
  title : Cps
  date : Cps
deriving DecidableEq

/-- The year check of `_find_best_match`: with a truthy query year, the
4-character prefix of the result date (empty when the date is shorter than
4 characters) must equal the query year. -/
def yearGate (queryYear : Option Cps) (date : Cps) : Bool :=
  match queryYear with
  | none => true
  | some y =>
    if y = [] then true
    else (if 4 ≤ date.length then date.take 4 else []) == y

/-- The result loop of `_find_best_match` (continue on a failed check,
return the first result passing both). -/
def fbmLoop (queryWords : Finset Cps) (queryYear : Option Cps) :
    List TmdbResult → Option TmdbResult
  | [] => none
  | r :: rest =>
    if yearGate queryYear r.date = false then fbmLoop queryWords queryYear rest
    else if queryWords ≠ ∅ ∧ ¬ queryWords ⊆ extractWords r.title then
      fbmLoop queryWords queryYear rest
    else some r

/-- `_find_best_match`: first validated result, else the first result,
else nothing for an empty input. -/
def findBestMatch (results : List TmdbResult) (queryTitle : Cps)
    (queryYear : Option Cps) : Option TmdbResult :=
  match results with
  | [] => none
  | r0 :: _ =>
    match fbmLoop (extractWords queryTitle) queryYear results with
    | some r => some r
    | none => some r0

/-! ## main.py: exclusion ledger and trailer handling -/

/-- `TRAILER_MAX_ATTEMPTS` (config.py). -/
def trailerMaxAttempts : Nat := 2

/-- `EXCLUSION_YEAR_CUTOFF`. -/
def exclusionYearCutoff : Nat := 2000

/-- One entry of the persistent trailer-failure ledger. -/
structure LedgerEntry where
  count : Nat
  name : Cps
  excluded : Bool
deriving DecidableEq

/-- The `failures` mapping, keyed by the namespaced string key. -/
def Ledger := Cps → Option LedgerEntry

/-- `f"tmdb-{tmdb_id}"`. -/
def ledgerKey (tmdbId : Cps) : Cps := ofAscii "tmdb-" ++ tmdbId

/-- `_is_trailer_excluded`. -/
def isTrailerExcluded (failures : Ledger) (tmdbId : Cps) : Bool :=
  match failures (ledgerKey tmdbId) with
  | some e => e.excluded
  | none => false

/-- `_record_trailer_failure`. -/
def recordTrailerFailure (failures : Ledger) (tmdbId name : Cps) : Ledger :=
  let key := ledgerKey tmdbId
  let entry := (failures key).getD ⟨0, name, false⟩
  let entry : LedgerEntry := ⟨entry.count + 1, name, entry.excluded⟩
  let entry := if trailerMaxAttempts ≤ entry.count then
                 { entry with excluded := true }
               else entry
  fun k => if k = key then some entry else failures k

/-- `_record_trailer_success`. -/
def recordTrailerSuccess (failures : Ledger) (tmdbId : Cps) : Ledger :=
  let key := ledgerKey tmdbId
  fun k => if k = key then none else failures k

/-- ASCII decimal digit. -/
def isDigitCp (c : Nat) : Bool := 0x30 ≤ c && c ≤ 0x39

/-- Match `\((\d{4})\)` at the head of the string, returning the year value
(`int` of the four digits). -/
def year4At : Cps → Option Nat
  | 0x28 :: a :: b :: c :: d :: 0x29 :: _ =>
    if isDigitCp a && isDigitCp b && isDigitCp c && isDigitCp d then
      some ((a - 0x30) * 1000 + (b - 0x30) * 100 + (c - 0x30) * 10 + (d - 0x30))
    else none
  | _ => none

/-- Leftmost-position scan of `re.search(r'\((\d{4})\)', ·)`. -/
def yearScan : Cps → Nat
  | [] => 0
  | l@(_ :: rest) =>
    match year4At l with
    | some y => y
    | none => yearScan rest

/-- `_extract_year_from_folder` (0 when no year is found). -/
def extractYearFromFolder (name : Cps) : Nat := yearScan name

/-- Strip `p` off the head of `s`, if present. -/
def dropLead : Cps → Cps → Option Cps
  | [], s => some s
  | _ :: _, [] => none
  | p :: ps, c :: cs => if p = c then dropLead ps cs else none

/-- Match `\[tmdb-(\d+)\]` at the head of the string, returning the digits.
The digit run is maximal; since the run must be followed by `]`, regex
backtracking can never produce a shorter match. -/
def tmdbIdAt (l : Cps) : Option Cps :=
  match dropLead (ofAscii "[tmdb-") l with
  | none => none
  | some rest =>
    let digits := rest.takeWhile isDigitCp
    if digits ≠ [] ∧ (rest.dropWhile isDigitCp).head? = some 0x5D then
      some digits
    else none

/-- Leftmost-position scan of `re.search(r'\[tmdb-(\d+)\]', ·)`. -/
def tmdbIdScan : Cps → Option Cps
  | [] => none
  | l@(_ :: rest) =>
    match tmdbIdAt l with
    | some d => some d
    | none => tmdbIdScan rest

/-- The tmdb id extracted from a folder name in `_handle_trailer`. -/
def extractTmdbId (name : Cps) : Option Cps := tmdbIdScan name

/-- `JellyfinHelper._handle_trailer`, with the filesystem check and the
download outcome supplied as oracles (`trailer.mkv` existence; the result of
`_download_show_trailer` / `_download_movie_trailer`).  Returns the updated
failure ledger. -/
def handleTrailer (trailerExists : Bool) (folderName : Cps)
    (failures : Ledger) (downloadSucceeds : Bool) : Ledger :=
  if trailerExists then failures
  else
    match extractTmdbId folderName with
    | none => failures
    | some tmdbId =>
      let year := extractYearFromFolder folderName
      if year ≠ 0 ∧ year < exclusionYearCutoff ∧
          isTrailerExcluded failures tmdbId then failures
      else if downloadSucceeds then recordTrailerSuccess failures tmdbId
      else if year ≠ 0 ∧ year < exclusionYearCutoff then
        recordTrailerFailure failures tmdbId folderName
      else failures

/-! ## main.py: run_once control flow -/

/-- Outcome of one folder's pipeline (`_process_movie` / `_process_show`):
normal return with its changed-flag, or a raised exception. -/
inductive ProcResult where
  | ok (changed : Bool)
  | failed
deriving DecidableEq

/-- The observable outcome of `run_once`. -/
structure RunOutcome where
  attempted : List Cps
  errors : Nat
  changes : Bool
  ledgerSaved : Bool
  summaryReported : Bool
deriving DecidableEq

/-- One folder loop of `run_once`: the try/except around each folder turns an
exception into an error count increment and the loop continues; `attempted`
records the folders whose iteration ran. -/
def foldFolders (proc : Cps → ProcResult) (folders : List Cps)
    (st : List Cps × Bool × Nat) : List Cps × Bool × Nat :=
  folders.foldl
    (fun st f =>
      match proc f with
      | .ok b => (st.1 ++ [f], st.2.1 || b, st.2.2)
      | .failed => (st.1 ++ [f], st.2.1, st.2.2 + 1))
    st

/-- `run_once`: movie folders then show folders, each with per-folder
exception isolation, then the ledger save and the end-of-run summary. -/
def runOnce (procMovie procShow : Cps → ProcResult)
    (movies shows : List Cps) : RunOutcome :=
  let st1 := foldFolders procMovie movies ([], false, 0)
  let st2 := foldFolders procShow shows st1
  { attempted := st2.1, errors := st2.2.2, changes := st2.2.1,
    ledgerSaved := true, summaryReported := true }

/-! ## Specification-side predicates (restating the claims' wording, to be
compared against the code functions above) -/

/-- The four hard-rejection conditions of the scorer as the spec states them:
no "trailer" token, `title_words` not a subset, a denylist substring in the
normalized title, or (in season context with a positive season number) none
of the season-reference phrases occurring as a substring. -/
def hardReject (candidate : Candidate) (titleWords : Finset Cps)
    (isSeason : Bool) (seasonNum : Nat) : Prop :=
  ofAscii "trailer" ∉ extractWords candidate.title ∨
  ¬ titleWords ⊆ extractWords candidate.title ∨
  (∃ kw ∈ rejectKeywords, isSubstr kw (normalize candidate.title) = true) ∨
  (isSeason = true ∧ 0 < seasonNum ∧
    ∀ p ∈ seasonPats seasonNum, isSubstr p (normalize candidate.title) = false)

/-- The additive score formula as the spec states it: base 5, +3 for the year
token, +4 for a verified channel, +3 for official/oficial, +5 for red band,
+2 / -3 duration adjustment, +1 for at most 10 tokens. -/
def claimScore (candidate : Candidate) (year : Cps) : Int :=
  let videoWords := extractWords candidate.title
  5 + (if year ∈ videoWords then 3 else 0)
    + (if candidate.channelIsVerified then 4 else 0)
    + (if ofAscii "official" ∈ videoWords ∨ ofAscii "oficial" ∈ videoWords
       then 3 else 0)
    + (if ofAscii "red" ∈ videoWords ∧ ofAscii "band" ∈ videoWords then 5
       else 0)
    + (if 30 ≤ candidate.duration ∧ candidate.duration ≤ 240 then 2
       else if 600 < candidate.duration then -3 else 0)
    + (if videoWords.card ≤ 10 then 1 else 0)

/-- The validation predicate of claim C1: the year gate passes (when a query
year is supplied, the 4-digit prefix of the result date equals it exactly)
and the tokenized result title is a superset of the tokenized query title. -/
def validatedMatch (queryTitle : Cps) (queryYear : Option Cps)
    (r : TmdbResult) : Bool :=
  yearGate queryYear r.date &&
    decide (extractWords queryTitle ⊆ extractWords r.title)

/-- The ordered query list exactly as claim C5 words it for the non-season
case: the localized-differs test is applied to the raw input titles, only the
embedded copies are colon-stripped. -/
def claimQueriesLiteral (localized fallback year : Cps) (isShow : Bool) :
    List Cps :=
  let fb := stripColons fallback
  let lc := stripColons localized
  let category := if isShow then ofAscii "tv series" else ofAscii "movie"
  (if year ≠ [] then
     [fb ++ ofAscii " " ++ year ++ ofAscii " official trailer",
      fb ++ ofAscii " " ++ year ++ ofAscii " " ++ category
        ++ ofAscii " trailer"]
   else [])
  ++ [fb ++ ofAscii " official trailer"]
  ++ (if localized ≠ [] ∧ localized ≠ fallback then
        (if year ≠ [] then
           [lc ++ ofAscii " " ++ year ++ ofAscii " official trailer"]
         else [])
        ++ [lc ++ ofAscii " trailer"]
      else [])

/-- The amended C5 query list: as `claimQueriesLiteral`, but the
localized-differs test compares the colon-stripped titles (which is what the
source does, since it strips colons before the comparison). -/
def claimQueriesAmended (localized fallback year : Cps) (isShow : Bool) :
    List Cps :=
  let fb := stripColons fallback
  let lc := stripColons localized
  let category := if isShow then ofAscii "tv series" else ofAscii "movie"
  (if year ≠ [] then
     [fb ++ ofAscii " " ++ year ++ ofAscii " official trailer",
      fb ++ ofAscii " " ++ year ++ ofAscii " " ++ category
        ++ ofAscii " trailer"]
   else [])
  ++ [fb ++ ofAscii " official trailer"]
  ++ (if lc ≠ [] ∧ lc ≠ fb then
        (if year ≠ [] then
           [lc ++ ofAscii " " ++ year ++ ofAscii " official trailer"]
         else [])
        ++ [lc ++ ofAscii " trailer"]
      else [])

/-! ## Concrete sample data used by witnesses and counterexamples -/

/-- The spec §8 scorer example, realized so the year token is present:
verified channel, duration 120s, year token in the title. -/
def exampleCandidate : Candidate :=
  ⟨ofAscii "idA", ofAscii "Movie X 2020 Official Trailer",
    ofAscii "Chan", true, 120⟩

def exampleTitleWords : Finset Cps := {ofAscii "movie", ofAscii "x"}

/-- A candidate that passes every hard filter but is overlong (duration
penalty) and has more than 10 title tokens (no conciseness bonus). -/
def longCandidate : Candidate :=
  ⟨ofAscii "idC", ofAscii "trailer a b c d e f g h i j", [], false, 700⟩

def emptyLedger : Ledger := fun _ => none

/-- Two search steps (query with its results) for the search-loop witness. -/
def sampleSteps : List (Cps × List Candidate) :=
  [(ofAscii "q one", [exampleCandidate]), (ofAscii "q two", [longCandidate])]

/-! # Lemmas

## The normalizer is idempotent -/

lemma tblLookup_eq_none_of_keys_lt (t : List (Nat × List Nat)) (c : Nat)
    (h : ∀ p ∈ t, p.1 < c) : tblLookup t c = none := by
  induction t with
  | nil => rfl
  | cons p rest ih =>
    have hp := h p (by simp)
    simp only [tblLookup]
    rw [if_neg (by omega)]
    exact ih (fun q hq => h q (by simp [hq]))

lemma nfkdChar_eq_default (c : Nat) (h : 0x250 ≤ c) : nfkdChar c = [c] := by
  have hkeys : ∀ p ∈ nfkdTable, p.1 < 0x250 := by decide
  unfold nfkdChar
  rw [tblLookup_eq_none_of_keys_lt nfkdTable c (fun p hp => by
    have := hkeys p hp; omega)]
  rfl

lemma lowerChar_eq_self_of_large (c : Nat) (h : 0xDF ≤ c) : lowerChar c = c := by
  unfold lowerChar
  rw [if_neg (by simp; omega), if_neg (by simp; omega)]

/-- On the bounded part of the repertoire, every non-combining output of a
decomposition is, after lowercasing, a fixed point of every `normalize`
stage. -/
lemma bounded_stable : ∀ c, c < 0x250 → ∀ d ∈ nfkdChar c,
    combiningMark d = false → stableChar (lowerChar d) = true := by decide

lemma stable_after (c d : Nat) (hd : d ∈ nfkdChar c)
    (hnc : combiningMark d = false) : stableChar (lowerChar d) = true := by
  by_cases hc : c < 0x250
  · exact bounded_stable c hc d hd hnc
  · have hcd : d = c := by
      rw [nfkdChar_eq_default c (by omega)] at hd
      simpa using hd
    subst hcd
    have h1 : lowerChar d = d := lowerChar_eq_self_of_large d (by omega)
    rw [h1]
    unfold stableChar
    rw [nfkdChar_eq_default d (by omega), h1, hnc]
    simp

lemma mem_normalize_stable {t : Cps} {e : Nat} (he : e ∈ normalize t) :
    stableChar e = true := by
  unfold normalize at he
  rcases List.mem_map.mp he with ⟨d, hd, rfl⟩
  rcases List.mem_filter.mp hd with ⟨hdb, hdc⟩
  rcases List.mem_flatMap.mp hdb with ⟨c, _, hdn⟩
  exact stable_after c d hdn (by simpa using hdc)

lemma normalize_cons (a : Nat) (l : Cps) :
    normalize (a :: l) =
      ((nfkdChar a).filter (fun c => !combiningMark c)).map lowerChar
        ++ normalize l := by
  unfold normalize
  rw [List.flatMap_cons, List.filter_append, List.map_append]

lemma normalize_of_stable : ∀ l : Cps, (∀ e ∈ l, stableChar e = true) →
    normalize l = l := by
  intro l h
  induction l with
  | nil => rfl
  | cons a rest ih =>
    have ha := h a (by simp)
    unfold stableChar at ha
    simp only [Bool.and_eq_true, beq_iff_eq, Bool.not_eq_true'] at ha
    obtain ⟨⟨h1, h2⟩, h3⟩ := ha
    rw [normalize_cons, h1]
    have hfil : List.filter (fun c => !combiningMark c) [a] = [a] := by
      simp [h2]
    rw [hfil]
    simp only [List.map_cons, List.map_nil, List.cons_append, List.nil_append,
      h3]
    rw [ih (fun e he => h e (by simp [he]))]

lemma normalize_idem (t : Cps) : normalize (normalize t) = normalize t :=
  normalize_of_stable (normalize t) (fun _ he => mem_normalize_stable he)

/-! ## Tokenizer facts -/

lemma runsAux_ne_nil : ∀ (l cur : Cps), ∀ w ∈ runsAux l cur, w ≠ [] := by
  intro l
  induction l with
  | nil =>
    intro cur w hw
    unfold runsAux at hw
    by_cases hc : cur = []
    · rw [if_pos hc] at hw; simp at hw
    · rw [if_neg hc] at hw
      simp only [List.mem_singleton] at hw
      subst hw
      simpa using hc
  | cons c rest ih =>
    intro cur w hw
    unfold runsAux at hw
    by_cases hwc : isWordChar c = true
    · rw [if_pos hwc] at hw; exact ih _ w hw
    · rw [if_neg hwc] at hw
      by_cases hc : cur = []
      · rw [if_pos hc] at hw; exact ih _ w hw
      · rw [if_neg hc] at hw
        rcases List.mem_cons.mp hw with h | h
        · subst h; simpa using hc
        · exact ih _ w h

lemma nil_not_mem_extractWords (t : Cps) : ([] : Cps) ∉ extractWords t := by
  unfold extractWords wordRuns
  rw [List.mem_toFinset]
  intro h
  exact runsAux_ne_nil _ _ _ h rfl

/-! ## Scorer lemmas -/

instance (candidate : Candidate) (titleWords : Finset Cps) (isSeason : Bool)
    (seasonNum : Nat) :
    Decidable (hardReject candidate titleWords isSeason seasonNum) := by
  unfold hardReject
  exact inferInstance

lemma claimScore_bounds (candidate : Candidate) (year : Cps) :
    2 ≤ claimScore candidate year ∧
      (candidate.duration ≤ 600 → 5 ≤ claimScore candidate year) := by
  simp only [claimScore]
  constructor
  · split_ifs <;> omega
  · intro hd
    split_ifs <;> omega

/-- The scorer, written as the spec Sees it: the rejection sentinel on any
hard-rejection condition, the additive formula otherwise. -/
lemma scoreCandidate_eq_ite (candidate : Candidate) (titleWords : Finset Cps)
    (year : Cps) (isShow isSeason : Bool) (seasonNum : Nat) :
    scoreCandidate candidate titleWords year isShow isSeason seasonNum =
      if hardReject candidate titleWords isSeason seasonNum then -1
      else claimScore candidate year := by
  by_cases hr : hardReject candidate titleWords isSeason seasonNum
  · rw [if_pos hr]
    simp only [scoreCandidate]
    by_cases h1 : ofAscii "trailer" ∉ extractWords candidate.title
    · rw [if_pos h1]
    · rw [if_neg h1]
      by_cases h2 : ¬ titleWords ⊆ extractWords candidate.title
      · rw [if_pos h2]
      · rw [if_neg h2]
        by_cases h3 : (rejectKeywords.any fun kw =>
            isSubstr kw (normalize candidate.title)) = true
        · rw [if_pos h3]
        · rw [if_neg h3]
          have h4 : isSeason = true ∧ 0 < seasonNum ∧
              ¬ ((seasonPats seasonNum).any fun p =>
                isSubstr p (normalize candidate.title)) = true := by
            rcases hr with h | h | h | ⟨hs, hn, hall⟩
            · exact absurd h h1
            · exact absurd h h2
            · exact absurd (List.any_eq_true.mpr h) h3
            · refine ⟨hs, hn, fun hany => ?_⟩
              rcases List.any_eq_true.mp hany with ⟨p, hp, hsub⟩
              rw [hall p hp] at hsub
              cases hsub
          rw [if_pos h4]
  · rw [if_neg hr]
    have h1 : ¬ (ofAscii "trailer" ∉ extractWords candidate.title) :=
      fun h => hr (Or.inl h)
    have h2 : ¬ ¬ titleWords ⊆ extractWords candidate.title :=
      fun h => hr (Or.inr (Or.inl h))
    have h3 : ¬ ((rejectKeywords.any fun kw =>
        isSubstr kw (normalize candidate.title)) = true) :=
      fun h => hr (Or.inr (Or.inr (Or.inl (List.any_eq_true.mp h))))
    have h4 : ¬ (isSeason = true ∧ 0 < seasonNum ∧
        ¬ ((seasonPats seasonNum).any fun p =>
          isSubstr p (normalize candidate.title)) = true) := by
      rintro ⟨hs, hn, hno⟩
      refine hr (Or.inr (Or.inr (Or.inr ⟨hs, hn, fun p hp => ?_⟩)))
      cases hsp : isSubstr p (normalize candidate.title)
      · rfl
      · exact absurd (List.any_eq_true.mpr ⟨p, hp, hsp⟩) hno
    simp only [scoreCandidate, claimScore]
    rw [if_neg h1, if_neg h2, if_neg h3, if_neg h4]
    have hyiff : (year ≠ [] ∧ year ∈ extractWords candidate.title) ↔
        year ∈ extractWords candidate.title :=
      ⟨And.right, fun hm =>
        ⟨fun hy => nil_not_mem_extractWords candidate.title (hy ▸ hm), hm⟩⟩
    simp only [hyiff]
    split_ifs <;> omega

lemma scoreCandidate_eq_claimScore (candidate : Candidate)
    (titleWords : Finset Cps) (year : Cps) (isShow isSeason : Bool)
    (seasonNum : Nat)
    (h : ¬ hardReject candidate titleWords isSeason seasonNum) :
    scoreCandidate candidate titleWords year isShow isSeason seasonNum =
      claimScore candidate year := by
  rw [scoreCandidate_eq_ite, if_neg h]

lemma scoreCandidate_reject_iff (candidate : Candidate)
    (titleWords : Finset Cps) (year : Cps) (isShow isSeason : Bool)
    (seasonNum : Nat) :
    (scoreCandidate candidate titleWords year isShow isSeason seasonNum
      = -1) ↔ hardReject candidate titleWords isSeason seasonNum := by
  rw [scoreCandidate_eq_ite]
  by_cases hr : hardReject candidate titleWords isSeason seasonNum
  · simp [hr]
  · have := (claimScore_bounds candidate year).1
    simp only [if_neg hr]
    constructor
    · intro h; omega
    · intro h; exact absurd h hr

/-! # Claim theorems -/

/-- Claim C8: tokenization is idempotent — for every string `t`,
`_extract_words(t) == _extract_words(_normalize(t))`. -/
theorem claim_C8_tokenize_idempotent (t : Cps) :
    extractWords (normalize t) = extractWords t := by
  unfold extractWords
  rw [normalize_idem]

/-- Claim C2 counterexample: the §8 example candidate (title with the year
token present, verified channel, duration 120s) scores 18, not 17 — the
spec's arithmetic omits the +1 conciseness bonus the code awards for a
title of at most 10 tokens. -/
theorem claim_C2_counterexample :
    scoreCandidate exampleCandidate exampleTitleWords (ofAscii "2020")
        false false 0 = 18 ∧
    scoreCandidate exampleCandidate exampleTitleWords (ofAscii "2020")
        false false 0 ≠ 17 := by
  decide

/-- Claim C2 (amended): `_score_candidate` is a total function returning the
rejection sentinel -1 exactly when one of the four hard conditions holds, and
otherwise the additive score 5 +3(year token) +4(verified) +3(official)
+5(red band) +2 or -3 (duration) +1(conciseness); the §8 example scores exactly
18 (not 17: the conciseness bonus applies). -/
theorem claim_C2_scorer_total_function :
    (∀ (candidate : Candidate) (titleWords : Finset Cps) (year : Cps)
        (isShow isSeason : Bool) (seasonNum : Nat),
      ((scoreCandidate candidate titleWords year isShow isSeason seasonNum
          = -1) ↔ hardReject candidate titleWords isSeason seasonNum) ∧
      (¬ hardReject candidate titleWords isSeason seasonNum →
        scoreCandidate candidate titleWords year isShow isSeason seasonNum =
          claimScore candidate year)) ∧
    scoreCandidate exampleCandidate exampleTitleWords (ofAscii "2020")
        false false 0 = 18 :=
  ⟨fun candidate titleWords year isShow isSeason seasonNum =>
    ⟨scoreCandidate_reject_iff candidate titleWords year isShow isSeason
        seasonNum,
     scoreCandidate_eq_claimScore candidate titleWords year isShow isSeason
        seasonNum⟩,
   by decide⟩

/-- Claim C2 witness: the §8 candidate passes the hard filters and its score
equals the additive formula. -/
theorem claim_C2_witness :
    ¬ hardReject exampleCandidate exampleTitleWords false 0 ∧
    scoreCandidate exampleCandidate exampleTitleWords (ofAscii "2020")
        false false 0 = claimScore exampleCandidate (ofAscii "2020") :=
  ⟨by decide,
   (claim_C2_scorer_total_function.1 exampleCandidate exampleTitleWords
      (ofAscii "2020") false false 0).2 (by decide)⟩

/-- Claim C3 counterexample: a candidate that passes all four hard checks but
has duration 700s (> 600, -3 penalty) and more than 10 title tokens scores
2, below MIN_SCORE = 5, and is not eligible in `_pick_best`. -/
theorem claim_C3_counterexample :
    ¬ hardReject longCandidate ∅ false 0 ∧
    scoreCandidate longCandidate ∅ [] false false 0 = 2 ∧
    ¬ (5 ≤ scoreCandidate longCandidate ∅ [] false false 0) ∧
    pickBest [longCandidate] ∅ [] false false 0 = none := by
  decide

/-- Claim C3 (amended): every candidate passing the four hard-rejection
checks scores at least 2 (base 5 less the worst-case duration penalty 3),
and at least 5 — the `MIN_SCORE` acceptance floor — whenever its duration
does not exceed 600 seconds; so a pass-filter candidate can fall below the
floor, but only through the over-length duration penalty. -/
theorem claim_C3_acceptance_floor (candidate : Candidate)
    (titleWords : Finset Cps) (year : Cps) (isShow isSeason : Bool)
    (seasonNum : Nat)
    (h : ¬ hardReject candidate titleWords isSeason seasonNum) :
    2 ≤ scoreCandidate candidate titleWords year isShow isSeason seasonNum ∧
    (candidate.duration ≤ 600 →
      5 ≤ scoreCandidate candidate titleWords year isShow isSeason
        seasonNum) := by
  rw [scoreCandidate_eq_claimScore candidate titleWords year isShow isSeason
    seasonNum h]
  exact claimScore_bounds candidate year

/-- Claim C3 witness: the floor theorem applied at a concrete pass-filter
candidate. -/
theorem claim_C3_witness :
    2 ≤ scoreCandidate exampleCandidate exampleTitleWords (ofAscii "2020")
        false false 0 ∧
    (exampleCandidate.duration ≤ 600 →
      5 ≤ scoreCandidate exampleCandidate exampleTitleWords (ofAscii "2020")
        false false 0) :=
  claim_C3_acceptance_floor exampleCandidate exampleTitleWords (ofAscii "2020")
    false false 0 (by decide)

/-- Claim C6: ledger lifecycle with threshold 2 — first failure creates
count 1 / not excluded, a second failure on such an entry yields count 2 /
excluded, the excluded flag survives any further failure, a success deletes
the entry, and a failure after a success starts over at count 1 /
not excluded. -/
theorem claim_C6_exclusion_ledger_lifecycle (l : Ledger) (tmdbId n n' : Cps) :
    (l (ledgerKey tmdbId) = none →
      recordTrailerFailure l tmdbId n (ledgerKey tmdbId) =
        some ⟨1, n, false⟩) ∧
    (∀ e, l (ledgerKey tmdbId) = some e → e.count = 1 → e.excluded = false →
      recordTrailerFailure l tmdbId n (ledgerKey tmdbId) =
        some ⟨2, n, true⟩) ∧
    (∀ e, l (ledgerKey tmdbId) = some e → e.excluded = true →
      ∃ e', recordTrailerFailure l tmdbId n (ledgerKey tmdbId) = some e' ∧
        e'.excluded = true) ∧
    recordTrailerSuccess l tmdbId (ledgerKey tmdbId) = none ∧
    recordTrailerFailure (recordTrailerSuccess l tmdbId) tmdbId n'
      (ledgerKey tmdbId) = some ⟨1, n', false⟩ := by
  refine ⟨?_, ?_, ?_, ?_, ?_⟩
  · intro h
    simp [recordTrailerFailure, h, trailerMaxAttempts]
  · intro e he h1 hex
    simp [recordTrailerFailure, he, h1, trailerMaxAttempts]
  · intro e he hex
    by_cases hc : trailerMaxAttempts ≤ e.count + 1
    · refine ⟨⟨e.count + 1, n, true⟩, ?_, rfl⟩
      simp [recordTrailerFailure, he, hc]
    · refine ⟨⟨e.count + 1, n, e.excluded⟩, ?_, hex⟩
      simp [recordTrailerFailure, he, hc]
  · simp [recordTrailerSuccess]
  · simp [recordTrailerFailure, recordTrailerSuccess, trailerMaxAttempts]

/-- Claim C6 witness: the lifecycle theorem applied to the empty ledger and
a concrete identifier. -/
theorem claim_C6_witness :
    recordTrailerFailure emptyLedger (ofAscii "123") (ofAscii "Old (1999)")
        (ledgerKey (ofAscii "123")) =
      some ⟨1, ofAscii "Old (1999)", false⟩ ∧
    recordTrailerSuccess emptyLedger (ofAscii "123")
        (ledgerKey (ofAscii "123")) = none :=
  ⟨(claim_C6_exclusion_ledger_lifecycle emptyLedger (ofAscii "123")
      (ofAscii "Old (1999)") (ofAscii "x")).1 rfl,
   (claim_C6_exclusion_ledger_lifecycle emptyLedger (ofAscii "123")
      (ofAscii "Old (1999)") (ofAscii "x")).2.2.2.1⟩

lemma foldFolders_spec (proc : Cps → ProcResult) :
    ∀ (folders : List Cps) (st : List Cps × Bool × Nat),
      (foldFolders proc folders st).1 = st.1 ++ folders ∧
      (foldFolders proc folders st).2.2 =
        st.2.2 + folders.countP (fun f => decide (proc f = ProcResult.failed))
  | [], st => by simp [foldFolders]
  | f :: rest, st => by
    unfold foldFolders
    rw [List.foldl_cons]
    cases hp : proc f with
    | ok b =>
      simp only [hp]
      obtain ⟨ha, he⟩ := foldFolders_spec proc rest
        (st.1 ++ [f], st.2.1 || b, st.2.2)
      unfold foldFolders at ha he
      refine ⟨?_, ?_⟩
      · rw [ha]; simp
      · rw [he, List.countP_cons]
        simp [hp]
    | failed =>
      simp only [hp]
      obtain ⟨ha, he⟩ := foldFolders_spec proc rest
        (st.1 ++ [f], st.2.1, st.2.2 + 1)
      unfold foldFolders at ha he
      refine ⟨?_, ?_⟩
      · rw [ha]; simp
      · rw [he, List.countP_cons]
        simp [hp]
        omega

/-- Claim C7: per-folder failure isolation — every folder of both sequences
is processed regardless of which of them raise, each raising folder adds one
to the error count, and the run always reaches the ledger save and the
end-of-run summary. -/
theorem claim_C7_per_folder_isolation (procMovie procShow : Cps → ProcResult)
    (movies shows : List Cps) :
    (runOnce procMovie procShow movies shows).attempted = movies ++ shows ∧
    (runOnce procMovie procShow movies shows).errors =
      movies.countP (fun f => decide (procMovie f = ProcResult.failed)) +
        shows.countP (fun f => decide (procShow f = ProcResult.failed)) ∧
    (runOnce procMovie procShow movies shows).ledgerSaved = true ∧
    (runOnce procMovie procShow movies shows).summaryReported = true := by
  obtain ⟨ha1, he1⟩ := foldFolders_spec procMovie movies ([], false, 0)
  obtain ⟨ha2, he2⟩ := foldFolders_spec procShow shows
    (foldFolders procMovie movies ([], false, 0))
  simp only [runOnce]
  refine ⟨?_, ?_, trivial, trivial⟩
  · rw [ha2, ha1]; simp
  · rw [he2, he1]; simp

/-- Claim C10: `_handle_trailer` records a failure only when the folder name
carries a parenthesized 4-digit year that is non-zero and below the 2000
cutoff; with a failed download and no such year the ledger is returned
unchanged; every call either leaves the ledger unchanged, records a success
(deleting the entry, regardless of year), or records a year-gated failure. -/
theorem claim_C10_failure_recording_year_gated (trailerExists : Bool)
    (folderName : Cps) (failures : Ledger) (downloadSucceeds : Bool) :
    (downloadSucceeds = false →
      ¬ (extractYearFromFolder folderName ≠ 0 ∧
          extractYearFromFolder folderName < exclusionYearCutoff) →
      handleTrailer trailerExists folderName failures downloadSucceeds =
        failures) ∧
    (handleTrailer trailerExists folderName failures downloadSucceeds =
        failures ∨
      (∃ tmdbId, extractTmdbId folderName = some tmdbId ∧
        downloadSucceeds = true ∧
        handleTrailer trailerExists folderName failures downloadSucceeds =
          recordTrailerSuccess failures tmdbId) ∨
      (∃ tmdbId, extractTmdbId folderName = some tmdbId ∧
        downloadSucceeds = false ∧
        extractYearFromFolder folderName ≠ 0 ∧
        extractYearFromFolder folderName < exclusionYearCutoff ∧
        handleTrailer trailerExists folderName failures downloadSucceeds =
          recordTrailerFailure failures tmdbId folderName)) := by
  simp only [handleTrailer]
  by_cases hte : trailerExists = true
  · rw [if_pos hte]
    exact ⟨fun _ _ => rfl, Or.inl rfl⟩
  · rw [if_neg hte]
    cases hid : extractTmdbId folderName with
    | none => exact ⟨fun _ _ => rfl, Or.inl rfl⟩
    | some tmdbId =>
      dsimp only
      by_cases hskip : (extractYearFromFolder folderName ≠ 0 ∧
          extractYearFromFolder folderName < exclusionYearCutoff ∧
          isTrailerExcluded failures tmdbId = true)
      · rw [if_pos hskip]
        exact ⟨fun _ _ => rfl, Or.inl rfl⟩
      · rw [if_neg hskip]
        cases hds : downloadSucceeds with
        | true =>
          rw [if_pos rfl]
          exact ⟨fun hc _ => Bool.noConfusion hc,
            Or.inr (Or.inl ⟨tmdbId, rfl, rfl, rfl⟩)⟩
        | false =>
          rw [if_neg (by simp)]
          by_cases hyear : (extractYearFromFolder folderName ≠ 0 ∧
              extractYearFromFolder folderName < exclusionYearCutoff)
          · rw [if_pos hyear]
            exact ⟨fun _ hny => absurd hyear hny,
              Or.inr (Or.inr ⟨tmdbId, rfl, rfl, hyear.1, hyear.2, rfl⟩)⟩
          · rw [if_neg hyear]
            exact ⟨fun _ _ => rfl, Or.inl rfl⟩

/-- Claim C10 witness: a failed download for a folder with a year at or
after the cutoff leaves the ledger unchanged. -/
theorem claim_C10_witness :
    handleTrailer false (ofAscii "New Film (2005) [tmdb-42]") emptyLedger
      false = emptyLedger :=
  (claim_C10_failure_recording_year_gated false
    (ofAscii "New Film (2005) [tmdb-42]") emptyLedger false).1 rfl (by decide)

/-! ## The `_pick_best` fold invariant -/

lemma pickBestAux_char (titleWords : Finset Cps) (year : Cps)
    (isShow isSeason : Bool) (seasonNum : Nat) :
    ∀ (cands : List Candidate) (b0 : Option ScoredCandidate) (s0 : Int),
      (pickBestAux titleWords year isShow isSeason seasonNum cands (b0, s0) =
          (b0, s0) ∧
        ∀ c ∈ cands,
          scoreCandidate c titleWords year isShow isSeason seasonNum ≤ s0) ∨
      (∃ l1 c l2, cands = l1 ++ c :: l2 ∧
        pickBestAux titleWords year isShow isSeason seasonNum cands (b0, s0) =
          (some ⟨c, scoreCandidate c titleWords year isShow isSeason
            seasonNum⟩,
           scoreCandidate c titleWords year isShow isSeason seasonNum) ∧
        s0 < scoreCandidate c titleWords year isShow isSeason seasonNum ∧
        (∀ d ∈ l1,
          scoreCandidate d titleWords year isShow isSeason seasonNum <
            scoreCandidate c titleWords year isShow isSeason seasonNum) ∧
        (∀ d ∈ l2,
          scoreCandidate d titleWords year isShow isSeason seasonNum ≤
            scoreCandidate c titleWords year isShow isSeason seasonNum))
  | [], b0, s0 => Or.inl ⟨rfl, by simp⟩
  | c :: rest, b0, s0 => by
    unfold pickBestAux
    by_cases hlt :
        s0 < scoreCandidate c titleWords year isShow isSeason seasonNum
    · rw [if_pos hlt]
      rcases pickBestAux_char titleWords year isShow isSeason seasonNum rest
          (some ⟨c, scoreCandidate c titleWords year isShow isSeason
            seasonNum⟩)
          (scoreCandidate c titleWords year isShow isSeason seasonNum) with
        ⟨heq, hall⟩ | ⟨l1, c', l2, hsplit, heq, hgt, hl1, hl2⟩
      · exact Or.inr ⟨[], c, rest, by simp, heq, hlt, by simp, hall⟩
      · refine Or.inr ⟨c :: l1, c', l2, by rw [hsplit]; simp, heq,
          lt_trans hlt hgt, ?_, hl2⟩
        intro d hd
        rcases List.mem_cons.mp hd with rfl | hd
        · exact hgt
        · exact hl1 d hd
    · rw [if_neg hlt]
      rcases pickBestAux_char titleWords year isShow isSeason seasonNum rest
          b0 s0 with
        ⟨heq, hall⟩ | ⟨l1, c', l2, hsplit, heq, hgt, hl1, hl2⟩
      · refine Or.inl ⟨heq, ?_⟩
        intro d hd
        rcases List.mem_cons.mp hd with rfl | hd
        · omega
        · exact hall d hd
      · refine Or.inr ⟨c :: l1, c', l2, by rw [hsplit]; simp, heq, hgt, ?_, hl2⟩
        intro d hd
        rcases List.mem_cons.mp hd with rfl | hd
        · omega
        · exact hl1 d hd

lemma pickBest_some_min (cands : List Candidate) (titleWords : Finset Cps)
    (year : Cps) (isShow isSeason : Bool) (seasonNum : Nat)
    (b : ScoredCandidate)
    (h : pickBest cands titleWords year isShow isSeason seasonNum = some b) :
    minScore ≤ b.score := by
  unfold pickBest at h
  rcases pickBestAux_char titleWords year isShow isSeason seasonNum cands
      none (minScore - 1) with
    ⟨heq, _⟩ | ⟨l1, c, l2, _, heq, hgt, _, _⟩
  · rw [heq] at h
    cases h
  · rw [heq] at h
    simp only [Option.some.injEq] at h
    subst h
    unfold minScore at hgt ⊢
    dsimp only
    omega

/-- Claim C9 (implicit): `_pick_best` returns nothing exactly when no
candidate scores at least 5; a returned candidate carries its own score,
scores at least 5, its score is maximal over the list, and every strictly
earlier candidate scores strictly less (the strictly-greater comparison makes
the earliest maximal candidate win). -/
theorem claim_C9_pick_best_earliest_max (cands : List Candidate)
    (titleWords : Finset Cps) (year : Cps) (isShow isSeason : Bool)
    (seasonNum : Nat) :
    (pickBest cands titleWords year isShow isSeason seasonNum = none ↔
      ∀ c ∈ cands,
        scoreCandidate c titleWords year isShow isSeason seasonNum < 5) ∧
    (∀ b, pickBest cands titleWords year isShow isSeason seasonNum = some b →
      b.score = scoreCandidate b.cand titleWords year isShow isSeason
        seasonNum ∧
      5 ≤ b.score ∧
      (∀ c ∈ cands,
        scoreCandidate c titleWords year isShow isSeason seasonNum ≤
          b.score) ∧
      ∃ l1 l2, cands = l1 ++ b.cand :: l2 ∧
        ∀ d ∈ l1,
          scoreCandidate d titleWords year isShow isSeason seasonNum <
            b.score) := by
  unfold pickBest
  rcases pickBestAux_char titleWords year isShow isSeason seasonNum cands
      none (minScore - 1) with
    ⟨heq, hall⟩ | ⟨l1, c, l2, hsplit, heq, hgt, hl1, hl2⟩
  · rw [heq]
    constructor
    · constructor
      · intro _ d hd
        have := hall d hd
        unfold minScore at this
        omega
      · intro _
        rfl
    · intro b hb
      cases hb
  · rw [heq]
    constructor
    · constructor
      · intro hnone
        cases hnone
      · intro hall5
        have hc := hall5 c (by rw [hsplit]; simp)
        unfold minScore at hgt
        omega
    · intro b hb
      simp only [Option.some.injEq] at hb
      subst hb
      refine ⟨rfl, by unfold minScore at hgt; dsimp only; omega, ?_, l1, l2, hsplit, ?_⟩
      · intro d hd
        rw [hsplit] at hd
        rcases List.mem_append.mp hd with h | h
        · exact le_of_lt (hl1 d h)
        · rcases List.mem_cons.mp h with rfl | h
          · exact le_refl _
          · exact hl2 d h
      · exact hl1

/-- Claim C9 witness: the characterization applied to a concrete two-element
candidate list whose best is the second element. -/
theorem claim_C9_witness :
    (⟨exampleCandidate, 18⟩ : ScoredCandidate).score =
      scoreCandidate (⟨exampleCandidate, 18⟩ : ScoredCandidate).cand
        exampleTitleWords (ofAscii "2020") false false 0 ∧
    5 ≤ (⟨exampleCandidate, 18⟩ : ScoredCandidate).score ∧
    (∀ c ∈ [longCandidate, exampleCandidate],
      scoreCandidate c exampleTitleWords (ofAscii "2020") false false 0 ≤
        (⟨exampleCandidate, 18⟩ : ScoredCandidate).score) ∧
    ∃ l1 l2, [longCandidate, exampleCandidate] = l1 ++
        (⟨exampleCandidate, 18⟩ : ScoredCandidate).cand :: l2 ∧
      ∀ d ∈ l1,
        scoreCandidate d exampleTitleWords (ofAscii "2020") false false 0 <
          (⟨exampleCandidate, 18⟩ : ScoredCandidate).score :=
  (claim_C9_pick_best_earliest_max [longCandidate, exampleCandidate]
    exampleTitleWords (ofAscii "2020") false false 0).2
    ⟨exampleCandidate, 18⟩ (by decide)

/-! ## The search-loop control flow -/

lemma searchState_cons (q : Cps) (rs : List Candidate)
    (l : List (Cps × List Candidate)) (st : List Cps × List Candidate) :
    searchState ((q, rs) :: l) st = searchState l (mergeResults st rs) := by
  simp [searchState]

lemma searchState_nil (st : List Cps × List Candidate) :
    searchState [] st = st := rfl

lemma searchLoop_char (titleWords : Finset Cps) (year : Cps)
    (isShow isSeason : Bool) (seasonNum : Nat) :
    ∀ (steps : List (Cps × List Candidate))
      (st : List Cps × List Candidate),
      ∃ k, k ≤ steps.length ∧
        (searchLoop titleWords year isShow isSeason seasonNum steps st).1 =
          (steps.take k).map Prod.fst ∧
        (∀ j, j + 1 < k →
          ∀ b, pickBest (searchState (steps.take (j + 1)) st).2 titleWords
              year isShow isSeason seasonNum = some b → b.score < 12) ∧
        (k < steps.length →
          ∃ b, pickBest (searchState (steps.take k) st).2 titleWords year
              isShow isSeason seasonNum = some b ∧ 12 ≤ b.score ∧
            (searchLoop titleWords year isShow isSeason seasonNum steps
              st).2 = some b) ∧
        (k = steps.length →
          (searchLoop titleWords year isShow isSeason seasonNum steps
            st).2 =
          pickBest (searchState steps st).2 titleWords year isShow isSeason
            seasonNum)
  | [], st => by
    refine ⟨0, by simp, by simp [searchLoop], ?_, ?_, ?_⟩
    · intro j hj
      exact absurd hj (by omega)
    · intro h
      exact absurd h (by simp)
    · intro _
      simp [searchLoop, searchState]
  | (q, rs) :: rest, st => by
    rcases hpb : pickBest (mergeResults st rs).2 titleWords year isShow
        isSeason seasonNum with _ | b
    · obtain ⟨k', hk'le, hiss, h3, h4, h5⟩ :=
        searchLoop_char titleWords year isShow isSeason seasonNum rest
          (mergeResults st rs)
      refine ⟨k' + 1, by simpa using Nat.succ_le_succ hk'le, ?_, ?_, ?_, ?_⟩
      · simp only [searchLoop, hpb, List.take_succ_cons, List.map_cons]
        rw [hiss]
      · intro j hj b' hb'
        cases j with
        | zero =>
          rw [List.take_succ_cons, List.take_zero, searchState_cons,
            searchState_nil] at hb'
          rw [hpb] at hb'
          cases hb'
        | succ m =>
          rw [List.take_succ_cons, searchState_cons] at hb'
          exact h3 m (by omega) b' hb'
      · intro hk
        obtain ⟨b', hb', hbs', hres⟩ := h4 (by simpa using hk)
        refine ⟨b', ?_, hbs', ?_⟩
        · rw [List.take_succ_cons, searchState_cons]
          exact hb'
        · simp only [searchLoop, hpb]
          exact hres
      · intro hk
        simp only [searchLoop, hpb]
        rw [h5 (by simpa using hk), searchState_cons]
    · by_cases hbs : 12 ≤ b.score
      · refine ⟨1, by simp, ?_, ?_, ?_, ?_⟩
        · simp only [searchLoop, hpb]
          rw [if_pos hbs]
          simp
        · intro j hj
          exact absurd hj (by omega)
        · intro _
          refine ⟨b, ?_, hbs, ?_⟩
          · rw [List.take_succ_cons, List.take_zero, searchState_cons,
              searchState_nil]
            exact hpb
          · simp only [searchLoop, hpb]
            rw [if_pos hbs]
        · intro hk
          have hr : rest = [] := by
            cases rest with
            | nil => rfl
            | cons a l => simp at hk
          subst hr
          simp only [searchLoop, hpb]
          rw [if_pos hbs, searchState_cons, searchState_nil]
          exact hpb.symm
      · obtain ⟨k', hk'le, hiss, h3, h4, h5⟩ :=
          searchLoop_char titleWords year isShow isSeason seasonNum rest
            (mergeResults st rs)
        refine ⟨k' + 1, by simpa using Nat.succ_le_succ hk'le, ?_, ?_, ?_,
          ?_⟩
        · simp only [searchLoop, hpb]
          rw [if_neg hbs]
          simp only [List.take_succ_cons, List.map_cons]
          rw [hiss]
        · intro j hj b' hb'
          cases j with
          | zero =>
            rw [List.take_succ_cons, List.take_zero, searchState_cons,
              searchState_nil] at hb'
            rw [hpb] at hb'
            simp only [Option.some.injEq] at hb'
            subst hb'
            omega
          | succ m =>
            rw [List.take_succ_cons, searchState_cons] at hb'
            exact h3 m (by omega) b' hb'
        · intro hk
          obtain ⟨b', hb', hbs', hres⟩ := h4 (by simpa using hk)
          refine ⟨b', ?_, hbs', ?_⟩
          · rw [List.take_succ_cons, searchState_cons]
            exact hb'
          · simp only [searchLoop, hpb]
            rw [if_neg hbs]
            exact hres
        · intro hk
          simp only [searchLoop, hpb]
          rw [if_neg hbs, h5 (by simpa using hk), searchState_cons]

/-- Claim C4: the search orchestrator issues queries strictly in list order
(the issued queries are an initial segment); a later query is only issued
when no merge so far produced a best candidate scoring at least 12; when the
loop stops early, the high-confidence best over the accumulated
identifier-deduplicated results is returned at once; when the loop
completes, the final pick over all accumulated results is returned — which
is a candidate only when its score reaches the acceptance floor
MIN_SCORE = 5, and nothing otherwise. -/
theorem claim_C4_search_control_flow (titleWords : Finset Cps) (year : Cps)
    (isShow isSeason : Bool) (seasonNum : Nat)
    (steps : List (Cps × List Candidate)) :
    ∃ k, k ≤ steps.length ∧
      (searchLoop titleWords year isShow isSeason seasonNum steps
        ([], [])).1 = (steps.take k).map Prod.fst ∧
      (∀ j, j + 1 < k →
        ∀ b, pickBest (searchState (steps.take (j + 1)) ([], [])).2
            titleWords year isShow isSeason seasonNum = some b →
          b.score < 12) ∧
      (k < steps.length →
        ∃ b, pickBest (searchState (steps.take k) ([], [])).2 titleWords
            year isShow isSeason seasonNum = some b ∧ 12 ≤ b.score ∧
          (searchLoop titleWords year isShow isSeason seasonNum steps
            ([], [])).2 = some b) ∧
      (k = steps.length →
        (searchLoop titleWords year isShow isSeason seasonNum steps
          ([], [])).2 =
        pickBest (searchState steps ([], [])).2 titleWords year isShow
          isSeason seasonNum) ∧
      (∀ b, (searchLoop titleWords year isShow isSeason seasonNum steps
          ([], [])).2 = some b → minScore ≤ b.score) := by
  obtain ⟨k, h1, h2, h3, h4, h5⟩ :=
    searchLoop_char titleWords year isShow isSeason seasonNum steps ([], [])
  refine ⟨k, h1, h2, h3, h4, h5, ?_⟩
  intro b hb
  rcases lt_or_eq_of_le h1 with hlt | heq
  · obtain ⟨b', _, hbs', hres⟩ := h4 hlt
    rw [hres] at hb
    simp only [Option.some.injEq] at hb
    subst hb
    unfold minScore
    omega
  · rw [h5 heq] at hb
    exact pickBest_some_min _ titleWords year isShow isSeason seasonNum b hb

/-- Claim C4 witness: the control-flow theorem instantiated at a concrete
two-step search. -/
theorem claim_C4_witness :
    ∃ k, k ≤ sampleSteps.length ∧
      (searchLoop exampleTitleWords (ofAscii "2020") false false 0
        sampleSteps ([], [])).1 = (sampleSteps.take k).map Prod.fst ∧
      (∀ j, j + 1 < k →
        ∀ b, pickBest (searchState (sampleSteps.take (j + 1)) ([], [])).2
            exampleTitleWords (ofAscii "2020") false false 0 = some b →
          b.score < 12) ∧
      (k < sampleSteps.length →
        ∃ b, pickBest (searchState (sampleSteps.take k) ([], [])).2
            exampleTitleWords (ofAscii "2020") false false 0 = some b ∧
          12 ≤ b.score ∧
          (searchLoop exampleTitleWords (ofAscii "2020") false false 0
            sampleSteps ([], [])).2 = some b) ∧
      (k = sampleSteps.length →
        (searchLoop exampleTitleWords (ofAscii "2020") false false 0
          sampleSteps ([], [])).2 =
        pickBest (searchState sampleSteps ([], [])).2 exampleTitleWords
          (ofAscii "2020") false false 0) ∧
      (∀ b, (searchLoop exampleTitleWords (ofAscii "2020") false false 0
          sampleSteps ([], [])).2 = some b → minScore ≤ b.score) :=
  claim_C4_search_control_flow exampleTitleWords (ofAscii "2020") false
    false 0 sampleSteps

/-! ## The title-match validator -/

lemma fbmLoop_eq_find (qt : Cps) (qy : Option Cps) :
    ∀ l : List TmdbResult,
      fbmLoop (extractWords qt) qy l = l.find? (validatedMatch qt qy)
  | [] => rfl
  | r :: rest => by
    unfold fbmLoop
    cases hyg : yearGate qy r.date with
    | false =>
      rw [if_pos rfl, fbmLoop_eq_find qt qy rest,
        List.find?_cons_of_neg _ (by simp [validatedMatch, hyg])]
    | true =>
      rw [if_neg (by simp)]
      by_cases hsub : extractWords qt ⊆ extractWords r.title
      · rw [if_neg (fun h => h.2 hsub),
          List.find?_cons_of_pos _ (by simp [validatedMatch, hyg, hsub])]
      · have hne : extractWords qt ≠ ∅ := fun h =>
          hsub (by rw [h]; exact Finset.empty_subset _)
        rw [if_pos ⟨hne, hsub⟩, fbmLoop_eq_find qt qy rest,
          List.find?_cons_of_neg _ (by simp [validatedMatch, hyg, hsub])]

/-- Claim C1: `_find_best_match` returns the first result in the given order
that passes the year gate (when a query year is supplied, the 4-digit prefix
of its date equals the year; shorter or missing dates fail) and whose
tokenized title is a superset of the tokenized query title; when no result
passes both checks it falls back to the first result, and an empty input
yields nothing. -/
theorem claim_C1_title_match_validation (results : List TmdbResult)
    (queryTitle : Cps) (queryYear : Option Cps) :
    findBestMatch results queryTitle queryYear =
      match results.find? (validatedMatch queryTitle queryYear) with
      | some r => some r
      | none => results.head? := by
  cases results with
  | nil => rfl
  | cons r0 rest =>
    unfold findBestMatch
    rw [fbmLoop_eq_find]
    cases h : (r0 :: rest).find? (validatedMatch queryTitle queryYear) with
    | none => rfl
    | some r => rfl

/-! ## The query builder -/

lemma colon_not_mem_stripColons (t : Cps) :
    (0x3A : Nat) ∉ stripColons t := by
  unfold stripColons
  intro h
  rcases List.mem_filter.mp h with ⟨_, hne⟩
  simp at hne

lemma not_mem_append {a : Nat} {l1 l2 : Cps} (h1 : a ∉ l1) (h2 : a ∉ l2) :
    a ∉ l1 ++ l2 :=
  fun h => (List.mem_append.mp h).elim (fun x => h1 x) (fun x => h2 x)

lemma stripColons_opt (l : Cps) :
    (if l ≠ [] then stripColons l else l) = stripColons l := by
  by_cases h : l = []
  · subst h
    simp [stripColons]
  · rw [if_pos h]

lemma buildQueries_eq_amended (localized fallback year : Cps)
    (isShow : Bool) :
    buildQueries localized fallback year isShow false 0 =
      claimQueriesAmended localized fallback year isShow := by
  simp only [buildQueries, claimQueriesAmended, stripColons_opt]
  rfl

lemma buildQueries_no_colon (localized fallback year : Cps) (isShow : Bool)
    (hy : (0x3A : Nat) ∉ year) :
    ∀ q ∈ buildQueries localized fallback year isShow false 0,
      (0x3A : Nat) ∉ q := by
  have hcat : (0x3A : Nat) ∉
      (if isShow then ofAscii "tv series" else ofAscii "movie") := by
    cases isShow <;> decide
  intro q hq
  rw [buildQueries_eq_amended] at hq
  simp only [claimQueriesAmended] at hq
  revert hcat
  generalize (if isShow = true then ofAscii "tv series" else ofAscii "movie")
    = cat at hq
  intro hcat
  split_ifs at hq with h1 h2 <;>
    simp only [List.mem_append, List.mem_cons, List.mem_singleton,
      List.not_mem_nil, or_false, false_or, or_assoc] at hq
  · rcases hq with rfl | rfl | rfl | rfl | rfl <;>
      first
      | exact not_mem_append (colon_not_mem_stripColons _) (by decide)
      | exact not_mem_append (not_mem_append (not_mem_append
          (colon_not_mem_stripColons _) (by decide)) hy) (by decide)
      | exact not_mem_append (not_mem_append (not_mem_append (not_mem_append
          (not_mem_append (colon_not_mem_stripColons _) (by decide)) hy)
          (by decide)) hcat) (by decide)
  · rcases hq with rfl | rfl | rfl <;>
      first
      | exact not_mem_append (colon_not_mem_stripColons _) (by decide)
      | exact not_mem_append (not_mem_append (not_mem_append
          (colon_not_mem_stripColons _) (by decide)) hy) (by decide)
      | exact not_mem_append (not_mem_append (not_mem_append (not_mem_append
          (not_mem_append (colon_not_mem_stripColons _) (by decide)) hy)
          (by decide)) hcat) (by decide)
  · rcases hq with rfl | rfl <;>
      exact not_mem_append (colon_not_mem_stripColons _) (by decide)
  · rcases hq with rfl
    exact not_mem_append (colon_not_mem_stripColons _) (by decide)

/-- Claim C5 counterexample: with localized title `"A:"`, fallback `"A"` and
year `"20:22"` the produced list is not the list the claim describes (the
code compares the titles after stripping colons, so the localized variants
are dropped), and a produced query does contain a colon (the year is
embedded unstripped). -/
theorem claim_C5_counterexample :
    buildQueries (ofAscii "A:") (ofAscii "A") (ofAscii "20:22") false false
        0 ≠
      claimQueriesLiteral (ofAscii "A:") (ofAscii "A") (ofAscii "20:22")
        false ∧
    ∃ q ∈ buildQueries (ofAscii "A:") (ofAscii "A") (ofAscii "20:22") false
        false 0, (0x3A : Nat) ∈ q := by
  decide

/-- Claim C5 (amended): for the non-season case, `_build_queries` returns
exactly the claimed ordered list with the localized-differs test applied to
the colon-stripped titles, and — provided the year itself contains no
colon, as the 4-digit years the callers pass never do — no produced query
contains a colon. -/
theorem claim_C5_query_builder (localized fallback year : Cps)
    (isShow : Bool) (hy : (0x3A : Nat) ∉ year) :
    buildQueries localized fallback year isShow false 0 =
      claimQueriesAmended localized fallback year isShow ∧
    ∀ q ∈ buildQueries localized fallback year isShow false 0,
      (0x3A : Nat) ∉ q :=
  ⟨buildQueries_eq_amended localized fallback year isShow,
   buildQueries_no_colon localized fallback year isShow hy⟩

/-- Claim C5 witness: the spec's own example — the first query is exactly
`"Beyond Good 2022 official trailer"` and no query contains a colon. -/
theorem claim_C5_witness :
    (buildQueries (ofAscii "Dincolo de bine") (ofAscii "Beyond Good")
        (ofAscii "2022") false false 0 =
      claimQueriesAmended (ofAscii "Dincolo de bine") (ofAscii "Beyond Good")
        (ofAscii "2022") false) ∧
    (∀ q ∈ buildQueries (ofAscii "Dincolo de bine") (ofAscii "Beyond Good")
        (ofAscii "2022") false false 0, (0x3A : Nat) ∉ q) ∧
    (buildQueries (ofAscii "Dincolo de bine") (ofAscii "Beyond Good")
        (ofAscii "2022") false false 0).head? =
      some (ofAscii "Beyond Good 2022 official trailer") :=
  ⟨(claim_C5_query_builder (ofAscii "Dincolo de bine") (ofAscii "Beyond Good")
      (ofAscii "2022") false (by decide)).1,
   (claim_C5_query_builder (ofAscii "Dincolo de bine") (ofAscii "Beyond Good")
      (ofAscii "2022") false (by decide)).2,
   by decide⟩

end JellyfinHelper
